import Mathlib

/-!
# Verification of the taopq transaction lifecycle state machine

A shallow embedding of the transaction/connection core of the taopq library
(`src/lib/pq/transaction.cpp`, `include/tao/pq/transaction.hpp`,
`include/tao/pq/connection.hpp`, `include/tao/pq/connection_pool.hpp`).

Transaction objects are identified by natural numbers allocated from a
per-connection counter (`nextId`), standing in for the C++ object identity
(the `this` pointer used by `%p` in savepoint names).  A connection state
carries the `m_current_transaction` pointer, the heap of live transaction
objects, and a log of the SQL statements sent to the server.  The server is
an oracle `Srv` deciding, per statement, whether execution succeeds or
throws a given error; C++ exceptions are modelled as an `Option Error`
component alongside the (always surviving) state.
-/

set_option autoImplicit false

namespace TaoPq

/-- `tao::pq::basic_transaction::isolation_level` (include/tao/pq/transaction.hpp). -/
inductive isolation_level where
  | default_isolation_level
  | serializable
  | repeatable_read
  | read_committed
  | read_uncommitted
deriving DecidableEq, Repr

/-- `top_level_transaction::isolation_level_to_statement`
(include/tao/pq/connection.hpp:147-162). -/
def isolation_level_to_statement : isolation_level → String
  | .default_isolation_level => "START TRANSACTION"
  | .serializable => "START TRANSACTION ISOLATION LEVEL SERIALIZABLE"
  | .repeatable_read => "START TRANSACTION ISOLATION LEVEL REPEATABLE READ"
  | .read_committed => "START TRANSACTION ISOLATION LEVEL READ COMMITTED"
  | .read_uncommitted => "START TRANSACTION ISOLATION LEVEL READ UNCOMMITTED"

/-- The four concrete transaction classes:
`autocommit_transaction`, `top_level_transaction` (include/tao/pq/connection.hpp),
`top_level_subtransaction`, `nested_subtransaction` (include/tao/pq/transaction.hpp). -/
inductive TxnKind where
  | autocommit
  | topLevel
  | topLevelSub
  | nestedSub
deriving DecidableEq, Repr

/-- `v_is_direct`: `true` only for `autocommit_transaction`
(connection.hpp:130-133; `false` overrides at connection.hpp:194 and
transaction.hpp:172-175). -/
def v_is_direct : TxnKind → Bool
  | .autocommit => true
  | _ => false

/-- One transaction object: its class, whether `m_connection` is still set
(`attached = false` after `v_reset`), and for subtransactions the
`subtransaction_base::m_previous` pointer. -/
structure Txn where
  kind : TxnKind
  attached : Bool
  prev : Option Nat
deriving DecidableEq, Repr

/-- The observable state of one `basic_connection` together with the
transaction objects derived from it and the statements issued to the server. -/
structure ConnState where
  is_open : Bool
  current : Option Nat
  txns : List (Nat × Txn)
  log : List String
  nextId : Nat
deriving DecidableEq, Repr

/-- C++ exceptions escaping the modelled operations: the
`std::logic_error( "transaction order error" )`, and errors thrown while
executing a statement at the server (`known = false` models exceptions not
derived from `std::exception`, caught only by `catch( ... )`). -/
inductive Error where
  | orderError
  | serverError (known : Bool)
deriving DecidableEq, Repr

/-- The server oracle: for each statement, `none` means success, `some e`
means executing the statement throws `e`. -/
abbrev Srv := String → Option Error

def getTxn (s : ConnState) (t : Nat) : Option Txn :=
  s.txns.lookup t

/-- Replace the entry of transaction `t` in the heap. -/
def setTxn (s : ConnState) (t : Nat) (x : Txn) : ConnState :=
  { s with txns := s.txns.map fun p => if p.1 = t then (t, x) else p }

/-- Remove transaction `t` from the heap (object destroyed). -/
def eraseTxn (s : ConnState) (t : Nat) : ConnState :=
  { s with txns := s.txns.filter fun p => p.1 ≠ t }

/-- `basic_transaction::check_current_transaction`
(src/lib/pq/transaction.cpp:24-29): throws the order error when
`m_connection` is null or `this` is not the connection's current
transaction. -/
def check_current_transaction (s : ConnState) (t : Nat) : Except Error Unit :=
  match getTxn s t with
  | some tx => if tx.attached = true ∧ s.current = some t then .ok () else .error .orderError
  | none => .error .orderError

/-- `transaction::execute` on a plain statement, i.e.
`basic_transaction::execute_params` (src/lib/pq/transaction.cpp:31-40):
check the caller is current, then send the statement to the server. -/
def tx_execute (srv : Srv) (s : ConnState) (t : Nat) (stmt : String) :
    ConnState × Option Error :=
  match check_current_transaction s t with
  | .error e => (s, some e)
  | .ok _ => ({ s with log := s.log ++ [stmt] }, srv stmt)

/-- The savepoint identifier `TAOPQ_%p` derived from the object's identity
(transaction.hpp:243). -/
def savepoint_name (t : Nat) : String :=
  "TAOPQ_" ++ toString t

/-- The statement run by `v_commit` of each variant: nothing for
`autocommit_transaction` (connection.hpp:135-136), `COMMIT TRANSACTION` for
both top-level variants (connection.hpp:199-202, transaction.hpp:224-227),
`RELEASE SAVEPOINT` for `nested_subtransaction` (transaction.hpp:270-273). -/
def v_commit_statement (t : Nat) : TxnKind → Option String
  | .autocommit => none
  | .topLevel => some "COMMIT TRANSACTION"
  | .topLevelSub => some "COMMIT TRANSACTION"
  | .nestedSub => some ("RELEASE SAVEPOINT \"" ++ savepoint_name t ++ "\"")

/-- The statement run by `v_rollback` of each variant
(connection.hpp:138-139, 204-207; transaction.hpp:229-232, 275-278). -/
def v_rollback_statement (t : Nat) : TxnKind → Option String
  | .autocommit => none
  | .topLevel => some "ROLLBACK TRANSACTION"
  | .topLevelSub => some "ROLLBACK TRANSACTION"
  | .nestedSub => some ("ROLLBACK TO \"" ++ savepoint_name t ++ "\"")

/-- The current-transaction value restored by `v_reset`: `nullptr` for
`transaction_base::v_reset` (connection.hpp:107-111), `m_previous` for
`subtransaction_base::v_reset` (transaction.hpp:177-181). -/
def reset_current (tx : Txn) : Option Nat :=
  match tx.kind with
  | .autocommit => none
  | .topLevel => none
  | .topLevelSub => tx.prev
  | .nestedSub => tx.prev

/-- `v_reset`: restore the connection's current-transaction pointer and
release `m_connection` (detach). -/
def v_reset (s : ConnState) (t : Nat) : ConnState :=
  match getTxn s t with
  | none => s
  | some tx => setTxn { s with current := reset_current tx } t { tx with attached := false }

/-- `v_commit`: run the variant-specific commit statement, if any. -/
def v_commit (srv : Srv) (s : ConnState) (t : Nat) : ConnState × Option Error :=
  match getTxn s t with
  | none => (s, none)
  | some tx =>
      match v_commit_statement t tx.kind with
      | none => (s, none)
      | some stmt => tx_execute srv s t stmt

/-- `v_rollback`: run the variant-specific rollback statement, if any. -/
def v_rollback (srv : Srv) (s : ConnState) (t : Nat) : ConnState × Option Error :=
  match getTxn s t with
  | none => (s, none)
  | some tx =>
      match v_rollback_statement t tx.kind with
      | none => (s, none)
      | some stmt => tx_execute srv s t stmt

/-- `basic_transaction::commit` (src/lib/pq/transaction.cpp:47-60):
check the caller is current; `try { v_commit(); } catch( ... ) { v_reset();
throw; } v_reset();` — the cleanup runs on both the success and the failure
path, and the failure is re-raised afterwards. -/
def commit (srv : Srv) (s : ConnState) (t : Nat) : ConnState × Option Error :=
  match check_current_transaction s t with
  | .error e => (s, some e)
  | .ok _ =>
      let r := v_commit srv s t
      (v_reset r.1 t, r.2)

/-- `basic_transaction::rollback` (src/lib/pq/transaction.cpp:62-75),
symmetric to `commit`. -/
def rollback (srv : Srv) (s : ConnState) (t : Nat) : ConnState × Option Error :=
  match check_current_transaction s t with
  | .error e => (s, some e)
  | .ok _ =>
      let r := v_rollback srv s t
      (v_reset r.1 t, r.2)

/-- `transaction_base::transaction_base` (include/tao/pq/connection.hpp:91-98):
throws the order error when the connection already has a current
transaction, otherwise installs the new object as current. -/
def mk_transaction_base (s : ConnState) (kind : TxnKind) : ConnState × Except Error Nat :=
  if s.current = none then
    let id := s.nextId
    ({ s with txns := s.txns ++ [(id, ⟨kind, true, none⟩)],
              current := some id,
              nextId := id + 1 },
     .ok id)
  else (s, .error .orderError)

/-- `connection::direct` (include/tao/pq/connection.hpp:231-235): constructs
an `autocommit_transaction`, whose constructor is exactly the
`transaction_base` constructor (connection.hpp:125-127). -/
def direct (s : ConnState) : ConnState × Except Error Nat :=
  mk_transaction_base s .autocommit

/-- `connection::transaction` constructing a `top_level_transaction`
(include/tao/pq/connection.hpp:165-169, 237-241): run the
`transaction_base` constructor, then execute the isolation-level statement;
when that statement throws, `~transaction_base` runs during unwinding
(clearing the current pointer, connection.hpp:100-105) and the object is
destroyed. -/
def begin_transaction (srv : Srv) (s : ConnState) (il : isolation_level) :
    ConnState × Except Error Nat :=
  match mk_transaction_base s .topLevel with
  | (s1, .error e) => (s1, .error e)
  | (s1, .ok id) =>
      match tx_execute srv s1 id (isolation_level_to_statement il) with
      | (s2, none) => (s2, .ok id)
      | (s2, some e) => (eraseTxn { s2 with current := none } id, .error e)

/-- `subtransaction_base::subtransaction_base`
(include/tao/pq/transaction.hpp:158-163): record the previous current
transaction in `m_previous` and install the new object as current. -/
def mk_subtransaction_base (s : ConnState) (kind : TxnKind) : ConnState × Nat :=
  let id := s.nextId
  ({ s with txns := s.txns ++ [(id, ⟨kind, true, s.current⟩)],
            current := some id,
            nextId := id + 1 },
   id)

/-- `top_level_subtransaction::top_level_subtransaction`
(include/tao/pq/transaction.hpp:195-199): after the `subtransaction_base`
constructor, execute `START TRANSACTION`; if that throws,
`~subtransaction_base` restores the previous current transaction
(transaction.hpp:165-170) and the object is destroyed. -/
def mk_top_level_subtransaction (srv : Srv) (s : ConnState) : ConnState × Except Error Nat :=
  match mk_subtransaction_base s .topLevelSub with
  | (s1, id) =>
      match tx_execute srv s1 id "START TRANSACTION" with
      | (s2, none) => (s2, .ok id)
      | (s2, some e) => (eraseTxn { s2 with current := s.current } id, .error e)

/-- `nested_subtransaction::nested_subtransaction`
(include/tao/pq/transaction.hpp:240-244): after the `subtransaction_base`
constructor, execute `SAVEPOINT "TAOPQ_%p"` named after the new object's
identity; ctor-throw unwinding as for the top-level subtransaction. -/
def mk_nested_subtransaction (srv : Srv) (s : ConnState) : ConnState × Except Error Nat :=
  match mk_subtransaction_base s .nestedSub with
  | (s1, id) =>
      match tx_execute srv s1 id ("SAVEPOINT \"" ++ savepoint_name id ++ "\"") with
      | (s2, none) => (s2, .ok id)
      | (s2, some e) => (eraseTxn { s2 with current := s.current } id, .error e)

/-- `transaction::subtransaction` (include/tao/pq/transaction.hpp:281-290):
check the caller is current, then dispatch on `v_is_direct`. -/
def subtransaction (srv : Srv) (s : ConnState) (t : Nat) : ConnState × Except Error Nat :=
  match check_current_transaction s t with
  | .error e => (s, .error e)
  | .ok _ =>
      match getTxn s t with
      | none => (s, .error .orderError)
      | some tx =>
          if v_is_direct tx.kind then mk_top_level_subtransaction srv s
          else mk_nested_subtransaction srv s

/-- The destructor chain of a transaction object
(connection.hpp:100-105, 171-186; transaction.hpp:165-170, 201-216,
246-262): the most-derived destructor attempts `rollback()` when
`m_connection` is set, the connection is open and the class is not
`autocommit_transaction`, swallowing any exception of known or unknown
type; then `~subtransaction_base`/`~transaction_base` restore the
current-transaction pointer when `m_connection` is still set; finally the
object storage is released.  No exception ever escapes. -/
def destruct (srv : Srv) (s : ConnState) (t : Nat) : ConnState :=
  match getTxn s t with
  | none => s
  | some tx =>
      let s1 :=
        if tx.attached = true ∧ s.is_open = true ∧ tx.kind ≠ TxnKind.autocommit then
          (rollback srv s t).1
        else s
      let s2 :=
        match getTxn s1 t with
        | some tx1 => if tx1.attached = true then { s1 with current := reset_current tx1 } else s1
        | none => s1
      eraseTxn s2 t

/-- Enter a subtransaction on the current transaction `t`, recursively do the
same `n` levels deeper, then exit by `commit` — the LIFO nesting scenario. -/
def enter_exit (srv : Srv) (s : ConnState) (t : Nat) : Nat → ConnState
  | 0 => s
  | n + 1 =>
      match subtransaction srv s t with
      | (s1, .ok t1) => (commit srv (enter_exit srv s1 t1 n) t1).1
      | (s1, .error _) => s1

/-- Well-formed heap: every allocated identity is below the allocation
counter, so freshly allocated identities are really fresh. -/
def WF (s : ConnState) : Prop :=
  ∀ p ∈ s.txns, p.1 < s.nextId

instance (s : ConnState) : Decidable (WF s) := by
  unfold WF; infer_instance

/-- `connection::execute` (include/tao/pq/connection.hpp:243-247):
`direct()->execute(...)`, the temporary autocommit transaction being
destroyed at the end of the full expression. -/
def connection_execute (srv : Srv) (c : ConnState) (stmt : String) :
    ConnState × Option Error :=
  match direct c with
  | (c1, .error e) => (c1, some e)
  | (c1, .ok t) =>
      match tx_execute srv c1 t stmt with
      | (c2, e) => (destruct srv c2 t, e)

/-- Modelled from the spec: `internal::pool` (the file
`include/tao/pq/internal/pool.hpp` is not under src/).  Per §4.3 of the
spec, `acquire`/`get` returns an idle connection when one is available and
otherwise materializes a new one from the stored recipe; on lease release
the connection is validated with `is_open` and recycled when valid,
discarded otherwise. -/
structure PoolState where
  idle : List ConnState
  recipe : ConnState
deriving DecidableEq, Repr

/-- Modelled from the spec: `internal::pool::get`, reached through
`connection_pool::connection` (include/tao/pq/connection_pool.hpp:46-49). -/
def pool_get (p : PoolState) : PoolState × ConnState :=
  match p.idle with
  | c :: rest => ({ p with idle := rest }, c)
  | [] => (p, p.recipe)

/-- Modelled from the spec: the lease's scoped release back into the pool,
validating the connection and discarding it when no longer open. -/
def pool_release (p : PoolState) (c : ConnState) : PoolState :=
  if c.is_open = true then { p with idle := c :: p.idle } else p

/-- `connection_pool::execute` (include/tao/pq/connection_pool.hpp:51-55):
`this->connection()->direct()->template execute(...)` — the lease and the
temporary transaction are destroyed at the end of the full expression, the
lease release returning the connection to the pool. -/
def pool_execute (srv : Srv) (p : PoolState) (stmt : String) :
    PoolState × ConnState × Option Error :=
  match pool_get p with
  | (p1, c) =>
      match direct c with
      | (c1, .error e) => (pool_release p1 c1, c1, some e)
      | (c1, .ok t) =>
          match tx_execute srv c1 t stmt with
          | (c2, e) =>
              match destruct srv c2 t with
              | c3 => (pool_release p1 c3, c3, e)

/-- The spec's composition `pool.connection()->direct()->execute(args...)`:
acquire a connection from the pool, run the one statement through
`connection::execute` (which constructs and destroys a direct transaction),
then release the lease. -/
def pool_execute_spec (srv : Srv) (p : PoolState) (stmt : String) :
    PoolState × ConnState × Option Error :=
  match pool_get p with
  | (p1, c) =>
      match connection_execute srv c stmt with
      | (c1, e) => (pool_release p1 c1, c1, e)

/-! ## Concrete instances used in witnesses -/

/-- A server that accepts every statement. -/
def srvOk : Srv := fun _ => none

/-- A server that rejects every statement with a known error, modelling a
`std::exception`-derived throw from statement execution. -/
def srvFail : Srv := fun _ => some (Error.serverError true)

/-- A live top-level transaction object. -/
def sampleTx : Txn := ⟨TxnKind.topLevel, true, none⟩

/-- An open connection whose current transaction is the top-level object `0`. -/
def sampleConn : ConnState := ⟨true, some 0, [(0, sampleTx)], [], 1⟩

/-- An open connection with no current transaction. -/
def idleConn : ConnState := ⟨true, none, [], [], 0⟩

/-! ## Helper lemmas about the transaction heap -/

theorem lookup_map_set_self (l : List (Nat × Txn)) (t : Nat) (x : Txn) :
    (l.map fun p => if p.1 = t then (t, x) else p).lookup t = (l.lookup t).map fun _ => x := by
  induction l with
  | nil => rfl
  | cons a l ih =>
      obtain ⟨a1, a2⟩ := a
      by_cases h : a1 = t
      · subst h; simp [List.lookup_cons]
      · simp only [List.map_cons]
        rw [if_neg (by simpa using h)]
        rw [List.lookup_cons, List.lookup_cons]
        have : (t == a1) = false := by simpa using fun hh => h hh.symm
        simp [this, ih]

theorem lookup_map_set_other (l : List (Nat × Txn)) (t k : Nat) (x : Txn) (h : k ≠ t) :
    (l.map fun p => if p.1 = t then (t, x) else p).lookup k = l.lookup k := by
  induction l with
  | nil => rfl
  | cons a l ih =>
      obtain ⟨a1, a2⟩ := a
      by_cases h1 : a1 = t
      · subst h1
        simp only [List.map_cons, if_pos rfl]
        rw [List.lookup_cons, List.lookup_cons]
        have : (k == a1) = false := by simpa using h
        simp [this, ih]
      · simp only [List.map_cons]
        rw [if_neg (by simpa using h1)]
        rw [List.lookup_cons, List.lookup_cons]
        cases hk : (k == a1) <;> simp [ih]

theorem lookup_append_some (l l' : List (Nat × Txn)) (k : Nat) (v : Txn)
    (h : l.lookup k = some v) : (l ++ l').lookup k = some v := by
  induction l with
  | nil => simp at h
  | cons a l ih =>
      obtain ⟨a1, a2⟩ := a
      rw [List.cons_append, List.lookup_cons]
      rw [List.lookup_cons] at h
      cases hk : (k == a1) <;> simp [hk] at h ⊢ <;> simp_all

theorem lookup_append_none (l l' : List (Nat × Txn)) (k : Nat)
    (h : l.lookup k = none) : (l ++ l').lookup k = l'.lookup k := by
  induction l with
  | nil => simp
  | cons a l ih =>
      obtain ⟨a1, a2⟩ := a
      rw [List.cons_append, List.lookup_cons]
      rw [List.lookup_cons] at h
      cases hk : (k == a1)
      · rw [hk] at h
        exact ih h
      · rw [hk] at h
        exact absurd h (by simp)

theorem mem_of_lookup (l : List (Nat × Txn)) (k : Nat) (v : Txn)
    (h : l.lookup k = some v) : (k, v) ∈ l := by
  induction l with
  | nil => simp at h
  | cons a l ih =>
      obtain ⟨a1, a2⟩ := a
      rw [List.lookup_cons] at h
      cases hk : (k == a1)
      · rw [hk] at h
        exact List.mem_cons_of_mem _ (ih h)
      · rw [hk] at h
        have hka : k = a1 := by simpa using hk
        have hv : a2 = v := by simpa using h
        subst hka; subst hv; exact List.mem_cons_self _ _

theorem lookup_none_of_bound (l : List (Nat × Txn)) (n k : Nat)
    (hb : ∀ p ∈ l, p.1 < n) (hk : n ≤ k) : l.lookup k = none := by
  induction l with
  | nil => simp
  | cons a l ih =>
      obtain ⟨a1, a2⟩ := a
      rw [List.lookup_cons]
      have ha1 : a1 < n := hb (a1, a2) (List.mem_cons_self _ _)
      have hne : (k == a1) = false := by
        simp only [beq_eq_false_iff_ne, ne_eq]
        intro hEq; subst hEq; exact absurd (Nat.lt_of_lt_of_le ha1 hk) (Nat.lt_irrefl _)
      rw [hne]
      exact ih fun p hp => hb p (List.mem_cons_of_mem _ hp)

theorem getTxn_lt_nextId (s : ConnState) (t : Nat) (tx : Txn)
    (hwf : WF s) (hl : getTxn s t = some tx) : t < s.nextId :=
  hwf (t, tx) (mem_of_lookup _ _ _ hl)

theorem getTxn_nextId_none (s : ConnState) (hwf : WF s) : getTxn s s.nextId = none :=
  lookup_none_of_bound s.txns s.nextId s.nextId hwf (Nat.le_refl _)

/-! ## Equation lemmas for the modelled operations -/

theorem check_ok (s : ConnState) (t : Nat) (tx : Txn)
    (hl : getTxn s t = some tx) (ha : tx.attached = true) (hc : s.current = some t) :
    check_current_transaction s t = Except.ok () := by
  simp [check_current_transaction, hl, ha, hc]

theorem check_fail_of_not_current (s : ConnState) (t : Nat) (h : s.current ≠ some t) :
    check_current_transaction s t = Except.error Error.orderError := by
  unfold check_current_transaction
  cases hl : getTxn s t
  · rfl
  · simp [h]

theorem tx_execute_of_ok (srv : Srv) (s : ConnState) (t : Nat) (stmt : String)
    (h : check_current_transaction s t = Except.ok ()) :
    tx_execute srv s t stmt = ({ s with log := s.log ++ [stmt] }, srv stmt) := by
  simp [tx_execute, h]

theorem v_reset_eq (s : ConnState) (t : Nat) (tx : Txn) (hl : getTxn s t = some tx) :
    v_reset s t =
      { s with current := reset_current tx,
               txns := s.txns.map fun p =>
                 if p.1 = t then (t, { tx with attached := false }) else p } := by
  unfold v_reset
  rw [hl]
  rfl

theorem v_commit_eq (srv : Srv) (s : ConnState) (t : Nat) (tx : Txn)
    (hl : getTxn s t = some tx)
    (hck : check_current_transaction s t = Except.ok ()) :
    v_commit srv s t =
      ({ s with log := s.log ++ (v_commit_statement t tx.kind).toList },
       (v_commit_statement t tx.kind).bind srv) := by
  unfold v_commit
  rw [hl]
  cases hstmt : v_commit_statement t tx.kind with
  | none => simp [hstmt]
  | some stmt => simp [tx_execute, hck, hstmt]

theorem v_rollback_eq (srv : Srv) (s : ConnState) (t : Nat) (tx : Txn)
    (hl : getTxn s t = some tx)
    (hck : check_current_transaction s t = Except.ok ()) :
    v_rollback srv s t =
      ({ s with log := s.log ++ (v_rollback_statement t tx.kind).toList },
       (v_rollback_statement t tx.kind).bind srv) := by
  unfold v_rollback
  rw [hl]
  cases hstmt : v_rollback_statement t tx.kind with
  | none => simp [hstmt]
  | some stmt => simp [tx_execute, hck, hstmt]

/-- The state and outcome of `commit` for a current, attached transaction:
the cleanup (`v_reset`) runs in every case, and the raised error is exactly
the error of the variant-specific commit statement. -/
theorem commit_eq (srv : Srv) (s : ConnState) (t : Nat) (tx : Txn)
    (hl : getTxn s t = some tx) (ha : tx.attached = true) (hc : s.current = some t) :
    commit srv s t =
      ({ s with current := reset_current tx,
                log := s.log ++ (v_commit_statement t tx.kind).toList,
                txns := s.txns.map fun p => if p.1 = t then (t, { tx with attached := false }) else p },
       (v_commit_statement t tx.kind).bind srv) := by
  have hck : check_current_transaction s t = Except.ok () := check_ok s t tx hl ha hc
  have hl2 : getTxn { s with log := s.log ++ (v_commit_statement t tx.kind).toList } t = some tx := hl
  have hstep : commit srv s t = (v_reset (v_commit srv s t).1 t, (v_commit srv s t).2) := by
    unfold commit
    rw [hck]
  rw [hstep, v_commit_eq srv s t tx hl hck]
  rw [v_reset_eq _ _ tx hl2]

/-- The state and outcome of `rollback` for a current, attached transaction. -/
theorem rollback_eq (srv : Srv) (s : ConnState) (t : Nat) (tx : Txn)
    (hl : getTxn s t = some tx) (ha : tx.attached = true) (hc : s.current = some t) :
    rollback srv s t =
      ({ s with current := reset_current tx,
                log := s.log ++ (v_rollback_statement t tx.kind).toList,
                txns := s.txns.map fun p => if p.1 = t then (t, { tx with attached := false }) else p },
       (v_rollback_statement t tx.kind).bind srv) := by
  have hck : check_current_transaction s t = Except.ok () := check_ok s t tx hl ha hc
  have hl2 : getTxn { s with log := s.log ++ (v_rollback_statement t tx.kind).toList } t = some tx := hl
  have hstep : rollback srv s t = (v_reset (v_rollback srv s t).1 t, (v_rollback srv s t).2) := by
    unfold rollback
    rw [hck]
  rw [hstep, v_rollback_eq srv s t tx hl hck]
  rw [v_reset_eq _ _ tx hl2]

theorem commit_of_check_fail (srv : Srv) (s : ConnState) (t : Nat)
    (h : s.current ≠ some t) : commit srv s t = (s, some Error.orderError) := by
  simp [commit, check_fail_of_not_current s t h]

theorem rollback_of_check_fail (srv : Srv) (s : ConnState) (t : Nat)
    (h : s.current ≠ some t) : rollback srv s t = (s, some Error.orderError) := by
  simp [rollback, check_fail_of_not_current s t h]

theorem lookup_filter_ne (l : List (Nat × Txn)) (t : Nat) :
    (l.filter fun p => p.1 ≠ t).lookup t = none := by
  induction l with
  | nil => rfl
  | cons a l ih =>
      obtain ⟨a1, a2⟩ := a
      by_cases h : a1 = t
      · simpa [List.filter_cons, h] using ih
      · rw [List.filter_cons]
        have hd : decide ¬(a1, a2).1 = t = true := by simpa using h
        rw [if_pos hd, List.lookup_cons]
        have : (t == a1) = false := by simpa using fun hh => h hh.symm
        rw [this]
        exact ih

theorem lookup_append_single_ne (l : List (Nat × Txn)) (k i : Nat) (x : Txn)
    (h : k ≠ i) : (l ++ [(i, x)]).lookup k = l.lookup k := by
  cases hk : l.lookup k with
  | some v => exact lookup_append_some l _ k v hk
  | none =>
      rw [lookup_append_none l _ k hk, List.lookup_cons]
      have : (k == i) = false := by simpa using h
      rw [this]
      rfl

theorem bound_append (l : List (Nat × Txn)) (n : Nat) (x : Txn)
    (hb : ∀ p ∈ l, p.1 < n) : ∀ p ∈ l ++ [(n, x)], p.1 < n + 1 := by
  intro p hp
  rcases List.mem_append.1 hp with h | h
  · exact Nat.lt_succ_of_lt (hb p h)
  · rcases List.mem_singleton.1 h with rfl
    exact Nat.lt_succ_self _

theorem bound_set (l : List (Nat × Txn)) (n t : Nat) (x : Txn)
    (hb : ∀ p ∈ l, p.1 < n) (ht : t < n) :
    ∀ p ∈ l.map fun p => if p.1 = t then (t, x) else p, p.1 < n := by
  intro p hp
  obtain ⟨q, hq, rfl⟩ := List.mem_map.1 hp
  by_cases h : q.1 = t
  · simpa [h] using ht
  · simpa [h] using hb q hq

/-! ## Destructor lemmas -/

/-- A transaction already resolved (detached by `v_reset`) is simply erased by
its destructor: no rollback attempt, no pointer change. -/
theorem destruct_detached (srv : Srv) (s : ConnState) (t : Nat) (tx : Txn)
    (hl : getTxn s t = some tx) (ha : tx.attached = false) :
    destruct srv s t = eraseTxn s t := by
  unfold destruct
  rw [hl]
  simp [ha, hl]

/-- For a still-attached, current, non-autocommit transaction on an open
connection the destructor attempts `rollback()` (whose outcome, error
included, is swallowed) and then erases the object. -/
theorem destruct_attached_open (srv : Srv) (s : ConnState) (t : Nat) (tx : Txn)
    (hl : getTxn s t = some tx) (ha : tx.attached = true) (hc : s.current = some t)
    (ho : s.is_open = true) (hk : tx.kind ≠ TxnKind.autocommit) :
    destruct srv s t = eraseTxn (rollback srv s t).1 t := by
  have hr := rollback_eq srv s t tx hl ha hc
  have hl1 : getTxn (rollback srv s t).1 t = some { tx with attached := false } := by
    rw [hr]
    show ((s.txns.map fun p => if p.1 = t then (t, { tx with attached := false }) else p).lookup t) = _
    rw [lookup_map_set_self]
    show (getTxn s t).map _ = _
    rw [hl]
    rfl
  unfold destruct
  rw [hl]
  simp only [ha, ho, hk, ne_eq, not_false_iff, and_self, if_true]
  rw [hl1]
  simp

/-- With the connection closed, the destructor skips the rollback attempt but
`~transaction_base`/`~subtransaction_base` still restore the pointer. -/
theorem destruct_attached_closed (srv : Srv) (s : ConnState) (t : Nat) (tx : Txn)
    (hl : getTxn s t = some tx) (ha : tx.attached = true) (ho : s.is_open = false) :
    destruct srv s t = eraseTxn { s with current := reset_current tx } t := by
  unfold destruct
  rw [hl]
  simp [ha, ho, hl]

/-- Destroying a still-attached, current, non-autocommit transaction restores
the connection's current-transaction pointer to the `v_reset` target. -/
theorem destruct_current_restores (srv : Srv) (s : ConnState) (t : Nat) (tx : Txn)
    (hl : getTxn s t = some tx) (ha : tx.attached = true) (hc : s.current = some t)
    (hk : tx.kind ≠ TxnKind.autocommit) :
    (destruct srv s t).current = reset_current tx := by
  cases ho : s.is_open with
  | true =>
      rw [destruct_attached_open srv s t tx hl ha hc ho hk]
      rw [rollback_eq srv s t tx hl ha hc]
      rfl
  | false =>
      rw [destruct_attached_closed srv s t tx hl ha ho]
      rfl

/-! ## Constructor lemmas -/

theorem mk_transaction_base_ok (s : ConnState) (kind : TxnKind) (h : s.current = none) :
    mk_transaction_base s kind =
      ({ s with txns := s.txns ++ [(s.nextId, ⟨kind, true, none⟩)],
                current := some s.nextId,
                nextId := s.nextId + 1 },
       .ok s.nextId) := by
  unfold mk_transaction_base
  rw [if_pos h]

theorem mk_transaction_base_fail (s : ConnState) (kind : TxnKind) (h : s.current ≠ none) :
    mk_transaction_base s kind = (s, .error .orderError) := by
  unfold mk_transaction_base
  rw [if_neg h]

/-- A freshly appended transaction is found by lookup in a well-formed state. -/
theorem getTxn_fresh (s : ConnState) (x : Txn) (hwf : WF s) :
    (s.txns ++ [(s.nextId, x)]).lookup s.nextId = some x := by
  rw [lookup_append_none _ _ _ (getTxn_nextId_none s hwf), List.lookup_cons]
  simp

theorem begin_transaction_ok (srv : Srv) (s : ConnState) (il : isolation_level)
    (h : s.current = none) (hwf : WF s)
    (hsrv : srv (isolation_level_to_statement il) = none) :
    begin_transaction srv s il =
      ({ s with txns := s.txns ++ [(s.nextId, ⟨.topLevel, true, none⟩)],
                current := some s.nextId,
                log := s.log ++ [isolation_level_to_statement il],
                nextId := s.nextId + 1 },
       .ok s.nextId) := by
  have hl1 : getTxn { s with txns := s.txns ++ [(s.nextId, (⟨.topLevel, true, none⟩ : Txn))],
                             current := some s.nextId, nextId := s.nextId + 1 } s.nextId =
      some ⟨.topLevel, true, none⟩ := getTxn_fresh s _ hwf
  have hck := check_ok _ s.nextId _ hl1 rfl rfl
  unfold begin_transaction
  rw [mk_transaction_base_ok s _ h]
  simp only [tx_execute_of_ok _ _ _ _ hck, hsrv]

theorem mk_top_level_subtransaction_ok (srv : Srv) (s : ConnState)
    (hwf : WF s) (hsrv : srv "START TRANSACTION" = none) :
    mk_top_level_subtransaction srv s =
      ({ s with txns := s.txns ++ [(s.nextId, ⟨.topLevelSub, true, s.current⟩)],
                current := some s.nextId,
                log := s.log ++ ["START TRANSACTION"],
                nextId := s.nextId + 1 },
       .ok s.nextId) := by
  have hl1 : getTxn { s with txns := s.txns ++ [(s.nextId, (⟨.topLevelSub, true, s.current⟩ : Txn))],
                             current := some s.nextId, nextId := s.nextId + 1 } s.nextId =
      some ⟨.topLevelSub, true, s.current⟩ := getTxn_fresh s _ hwf
  have hck := check_ok _ s.nextId _ hl1 rfl rfl
  unfold mk_top_level_subtransaction mk_subtransaction_base
  simp only [tx_execute_of_ok _ _ _ _ hck, hsrv]

theorem mk_nested_subtransaction_ok (srv : Srv) (s : ConnState)
    (hwf : WF s) (hsrv : srv ("SAVEPOINT \"" ++ savepoint_name s.nextId ++ "\"") = none) :
    mk_nested_subtransaction srv s =
      ({ s with txns := s.txns ++ [(s.nextId, ⟨.nestedSub, true, s.current⟩)],
                current := some s.nextId,
                log := s.log ++ ["SAVEPOINT \"" ++ savepoint_name s.nextId ++ "\""],
                nextId := s.nextId + 1 },
       .ok s.nextId) := by
  have hl1 : getTxn { s with txns := s.txns ++ [(s.nextId, (⟨.nestedSub, true, s.current⟩ : Txn))],
                             current := some s.nextId, nextId := s.nextId + 1 } s.nextId =
      some ⟨.nestedSub, true, s.current⟩ := getTxn_fresh s _ hwf
  have hck := check_ok _ s.nextId _ hl1 rfl rfl
  unfold mk_nested_subtransaction mk_subtransaction_base
  simp only [tx_execute_of_ok _ _ _ _ hck, hsrv]

theorem subtransaction_eq_direct (srv : Srv) (s : ConnState) (t : Nat) (tx : Txn)
    (hl : getTxn s t = some tx) (ha : tx.attached = true) (hc : s.current = some t)
    (hd : v_is_direct tx.kind = true) :
    subtransaction srv s t = mk_top_level_subtransaction srv s := by
  have hck := check_ok s t tx hl ha hc
  unfold subtransaction
  rw [hck, hl]
  simp [hd]

theorem subtransaction_eq_nested (srv : Srv) (s : ConnState) (t : Nat) (tx : Txn)
    (hl : getTxn s t = some tx) (ha : tx.attached = true) (hc : s.current = some t)
    (hd : v_is_direct tx.kind = false) :
    subtransaction srv s t = mk_nested_subtransaction srv s := by
  have hck := check_ok s t tx hl ha hc
  unfold subtransaction
  rw [hck, hl]
  simp [hd]

theorem subtransaction_fail (srv : Srv) (s : ConnState) (t : Nat)
    (h : s.current ≠ some t) :
    subtransaction srv s t = (s, .error Error.orderError) := by
  unfold subtransaction
  rw [check_fail_of_not_current s t h]

/-! ## The nesting invariant -/

theorem commit_proj (srv : Srv) (s : ConnState) (t : Nat) (tx : Txn)
    (hl : getTxn s t = some tx) (ha : tx.attached = true) (hc : s.current = some t) :
    (commit srv s t).1.current = reset_current tx ∧
    (commit srv s t).1.nextId = s.nextId ∧
    (commit srv s t).1.txns =
      (s.txns.map fun p => if p.1 = t then (t, { tx with attached := false }) else p) := by
  rw [commit_eq srv s t tx hl ha hc]
  exact ⟨rfl, rfl, rfl⟩

theorem commit_getTxn_other (srv : Srv) (s : ConnState) (t : Nat) (tx : Txn) (k : Nat)
    (hl : getTxn s t = some tx) (ha : tx.attached = true) (hc : s.current = some t)
    (hk : k ≠ t) :
    getTxn (commit srv s t).1 k = getTxn s k := by
  rw [commit_eq srv s t tx hl ha hc]
  show (s.txns.map fun p => if p.1 = t then (t, { tx with attached := false }) else p).lookup k = _
  rw [lookup_map_set_other s.txns t k _ hk]
  rfl

/-- Successful `subtransaction()` on a current transaction: a new object with
a fresh identity is installed as current, remembering the caller as
`m_previous`, after issuing the variant's begin statement. -/
theorem subtransaction_ok_shape (srv : Srv) (s : ConnState) (t : Nat) (tx : Txn)
    (hwf : WF s) (hsrv : ∀ q, srv q = none)
    (hl : getTxn s t = some tx) (ha : tx.attached = true) (hc : s.current = some t) :
    ∃ κ β, (κ = TxnKind.topLevelSub ∨ κ = TxnKind.nestedSub) ∧
      subtransaction srv s t =
        ({ s with txns := s.txns ++ [(s.nextId, ⟨κ, true, some t⟩)],
                  current := some s.nextId,
                  log := s.log ++ [β],
                  nextId := s.nextId + 1 },
         Except.ok s.nextId) := by
  cases hd : v_is_direct tx.kind with
  | true =>
      refine ⟨.topLevelSub, "START TRANSACTION", Or.inl rfl, ?_⟩
      rw [subtransaction_eq_direct srv s t tx hl ha hc hd,
          mk_top_level_subtransaction_ok srv s hwf (hsrv _), hc]
  | false =>
      refine ⟨.nestedSub, "SAVEPOINT \"" ++ savepoint_name s.nextId ++ "\"", Or.inr rfl, ?_⟩
      rw [subtransaction_eq_nested srv s t tx hl ha hc hd,
          mk_nested_subtransaction_ok srv s hwf (hsrv _), hc]

/-- Entering a subtransaction, recursing `n` levels deeper and committing in
LIFO order restores the caller as current, leaves every older object
untouched and preserves well-formedness. -/
theorem enter_exit_invariant (srv : Srv) (hsrv : ∀ q, srv q = none) :
    ∀ (n : Nat) (s : ConnState) (t : Nat) (tx : Txn),
      WF s → getTxn s t = some tx → tx.attached = true → s.current = some t →
      (enter_exit srv s t n).current = some t ∧
      (∀ k, k < s.nextId → getTxn (enter_exit srv s t n) k = getTxn s k) ∧
      WF (enter_exit srv s t n) ∧
      s.nextId ≤ (enter_exit srv s t n).nextId := by
  intro n
  induction n with
  | zero =>
      intro s t tx hwf hl ha hc
      exact ⟨hc, fun k _ => rfl, hwf, Nat.le_refl _⟩
  | succ n ih =>
      intro s t tx hwf hl ha hc
      obtain ⟨κ, β, hκ, hsub⟩ := subtransaction_ok_shape srv s t tx hwf hsrv hl ha hc
      set S1 : ConnState :=
        { s with txns := s.txns ++ [(s.nextId, ⟨κ, true, some t⟩)],
                 current := some s.nextId,
                 log := s.log ++ [β],
                 nextId := s.nextId + 1 } with hS1
      have hE : enter_exit srv s t (n + 1) =
          (commit srv (enter_exit srv S1 s.nextId n) s.nextId).1 := by
        simp only [enter_exit]
        rw [hsub]
      have hl1 : getTxn S1 s.nextId = some ⟨κ, true, some t⟩ := getTxn_fresh s _ hwf
      have hwf1 : WF S1 := fun p hp => bound_append s.txns s.nextId _ hwf p hp
      obtain ⟨ih1, ih2, ih3, ih4⟩ := ih S1 s.nextId ⟨κ, true, some t⟩ hwf1 hl1 rfl rfl
      have hlE : getTxn (enter_exit srv S1 s.nextId n) s.nextId = some ⟨κ, true, some t⟩ := by
        rw [ih2 s.nextId (Nat.lt_succ_self _)]
        exact hl1
      have hrc : reset_current ⟨κ, true, some t⟩ = some t := by
        rcases hκ with rfl | rfl <;> rfl
      obtain ⟨hFcur, hFnext, hFtxns⟩ :=
        commit_proj srv (enter_exit srv S1 s.nextId n) s.nextId ⟨κ, true, some t⟩ hlE rfl ih1
      refine ⟨?_, ?_, ?_, ?_⟩
      · rw [hE, hFcur, hrc]
      · intro k hk
        rw [hE]
        rw [commit_getTxn_other srv (enter_exit srv S1 s.nextId n) s.nextId
              ⟨κ, true, some t⟩ k hlE rfl ih1 (Nat.ne_of_lt hk)]
        rw [ih2 k (Nat.lt_succ_of_lt hk)]
        exact lookup_append_single_ne s.txns k s.nextId _ (Nat.ne_of_lt hk)
      · intro p hp
        rw [hE] at hp ⊢
        rw [hFnext]
        rw [hFtxns] at hp
        refine bound_set (enter_exit srv S1 s.nextId n).txns
          (enter_exit srv S1 s.nextId n).nextId s.nextId _ ih3 ?_ p hp
        exact Nat.lt_of_lt_of_le (Nat.lt_succ_self _) ih4
      · rw [hE, hFnext]
        exact Nat.le_of_succ_le ih4

/-! ## Further helper lemmas -/

theorem getTxn_after_commit (srv : Srv) (s : ConnState) (t : Nat) (tx : Txn)
    (hl : getTxn s t = some tx) (ha : tx.attached = true) (hc : s.current = some t) :
    getTxn (commit srv s t).1 t = some { tx with attached := false } := by
  rw [commit_eq srv s t tx hl ha hc]
  show (s.txns.map fun p => if p.1 = t then (t, { tx with attached := false }) else p).lookup t = _
  rw [lookup_map_set_self]
  rw [show s.txns.lookup t = some tx from hl]
  rfl

theorem getTxn_after_rollback (srv : Srv) (s : ConnState) (t : Nat) (tx : Txn)
    (hl : getTxn s t = some tx) (ha : tx.attached = true) (hc : s.current = some t) :
    getTxn (rollback srv s t).1 t = some { tx with attached := false } := by
  rw [rollback_eq srv s t tx hl ha hc]
  show (s.txns.map fun p => if p.1 = t then (t, { tx with attached := false }) else p).lookup t = _
  rw [lookup_map_set_self]
  rw [show s.txns.lookup t = some tx from hl]
  rfl

/-! ## The claims -/

/-- C1: for every transaction that is its connection's current transaction,
`commit()` and `rollback()` run the `v_reset` cleanup unconditionally — the
current-transaction pointer is restored to the variant's reset target and
the transaction is detached from its connection both when the
variant-specific statement succeeds and when it throws — and in the failure
case the statement's error is re-raised (returned) only after the cleanup
has completed. -/
theorem commit_rollback_cleanup_always_runs
    (srv : Srv) (s : ConnState) (t : Nat) (tx : Txn)
    (hl : getTxn s t = some tx) (ha : tx.attached = true) (hc : s.current = some t) :
    ((commit srv s t).1.current = reset_current tx ∧
      getTxn (commit srv s t).1 t = some { tx with attached := false } ∧
      (commit srv s t).2 = (v_commit_statement t tx.kind).bind srv) ∧
    ((rollback srv s t).1.current = reset_current tx ∧
      getTxn (rollback srv s t).1 t = some { tx with attached := false } ∧
      (rollback srv s t).2 = (v_rollback_statement t tx.kind).bind srv) :=
  ⟨⟨by rw [commit_eq srv s t tx hl ha hc],
    getTxn_after_commit srv s t tx hl ha hc,
    by rw [commit_eq srv s t tx hl ha hc]⟩,
   ⟨by rw [rollback_eq srv s t tx hl ha hc],
    getTxn_after_rollback srv s t tx hl ha hc,
    by rw [rollback_eq srv s t tx hl ha hc]⟩⟩

/-- Witness for C1: a failing server; the cleanup still ran and the error is
re-raised. -/
theorem commit_rollback_cleanup_witness :
    getTxn sampleConn 0 = some sampleTx ∧ sampleTx.attached = true ∧
    sampleConn.current = some 0 ∧
    (commit srvFail sampleConn 0).1.current = none ∧
    (commit srvFail sampleConn 0).2 = some (Error.serverError true) := by
  have h := commit_rollback_cleanup_always_runs srvFail sampleConn 0 sampleTx rfl rfl rfl
  refine ⟨rfl, rfl, rfl, ?_, ?_⟩
  · rw [h.1.1]
    rfl
  · rw [h.1.2.2]
    rfl

/-- C2: calling `commit()` on a transaction that is not the connection's
current transaction fails with the order error and leaves the whole
connection state — current-transaction pointer and statement log included —
unchanged. -/
theorem commit_noncurrent_order_error (srv : Srv) (s : ConnState) (t : Nat)
    (h : s.current ≠ some t) :
    commit srv s t = (s, some Error.orderError) :=
  commit_of_check_fail srv s t h

/-- Witness for C2. -/
theorem commit_noncurrent_witness :
    sampleConn.current ≠ some 3 ∧
    commit srvOk sampleConn 3 = (sampleConn, some Error.orderError) :=
  ⟨by decide, commit_noncurrent_order_error srvOk sampleConn 3 (by decide)⟩

/-- C3: constructing a second top-level transaction while one is current
fails with the order error and leaves the state — including the log (no
statement issued) and the current-transaction pointer — unchanged. -/
theorem second_top_level_order_error (srv : Srv) (s : ConnState)
    (il : isolation_level) (u : Nat) (h : s.current = some u) :
    begin_transaction srv s il = (s, Except.error Error.orderError) := by
  have hne : s.current ≠ none := by rw [h]; exact fun hx => Option.noConfusion hx
  unfold begin_transaction
  rw [mk_transaction_base_fail s _ hne]

/-- Witness for C3. -/
theorem second_top_level_witness :
    sampleConn.current = some 0 ∧
    begin_transaction srvOk sampleConn isolation_level.serializable =
      (sampleConn, Except.error Error.orderError) :=
  ⟨rfl, second_top_level_order_error srvOk sampleConn isolation_level.serializable 0 rfl⟩

/-- C4 counterexample: `sampleConn` is an open connection with an active
current transaction, yet `direct()` fails with the order error — the
`transaction_base` constructor shared by `autocommit_transaction`
(connection.hpp:91-98, 125-127) rejects any connection that already has a
current transaction, so `direct()` does not succeed "regardless of whether
another transaction is currently active". -/
theorem direct_active_counterexample :
    sampleConn.is_open = true ∧ sampleConn.current ≠ none ∧
    direct sampleConn = (sampleConn, Except.error Error.orderError) := by
  refine ⟨rfl, by decide, ?_⟩
  rfl

/-- C4 (amended): on an open connection with no current transaction,
`direct()` succeeds, performs no `BEGIN` (no statement is issued), and the
resulting autocommit transaction's `commit()` and `rollback()` issue no
statement at the server and succeed; with a current transaction active the
construction fails with the order error (see the counterexample). -/
theorem direct_no_current_autocommit (srv : Srv) (s : ConnState)
    (h : s.current = none) (hwf : WF s) :
    (direct s).2 = Except.ok s.nextId ∧
    (direct s).1.log = s.log ∧
    getTxn (direct s).1 s.nextId = some ⟨TxnKind.autocommit, true, none⟩ ∧
    (commit srv (direct s).1 s.nextId).2 = none ∧
    (commit srv (direct s).1 s.nextId).1.log = s.log ∧
    (rollback srv (direct s).1 s.nextId).2 = none ∧
    (rollback srv (direct s).1 s.nextId).1.log = s.log := by
  have hds : direct s =
      ({ s with txns := s.txns ++ [(s.nextId, ⟨TxnKind.autocommit, true, none⟩)],
                current := some s.nextId,
                nextId := s.nextId + 1 },
       Except.ok s.nextId) := mk_transaction_base_ok s TxnKind.autocommit h
  have hl1 : getTxn (direct s).1 s.nextId = some ⟨TxnKind.autocommit, true, none⟩ := by
    rw [hds]
    exact getTxn_fresh s _ hwf
  have hcur1 : (direct s).1.current = some s.nextId := by rw [hds]
  have hcomm := commit_eq srv (direct s).1 s.nextId ⟨TxnKind.autocommit, true, none⟩ hl1 rfl hcur1
  have hroll := rollback_eq srv (direct s).1 s.nextId ⟨TxnKind.autocommit, true, none⟩ hl1 rfl hcur1
  refine ⟨by rw [hds], by rw [hds], hl1, ?_, ?_, ?_, ?_⟩
  · rw [hcomm]
    rfl
  · rw [hcomm, hds]
    simp [v_commit_statement]
  · rw [hroll]
    rfl
  · rw [hroll, hds]
    simp [v_rollback_statement]

/-- Witness for the amended C4. -/
theorem direct_no_current_witness :
    idleConn.current = none ∧ WF idleConn ∧
    (direct idleConn).2 = Except.ok 0 ∧
    (direct idleConn).1.log = [] ∧
    (commit srvOk (direct idleConn).1 0).1.log = [] := by
  have h := direct_no_current_autocommit srvOk idleConn rfl (by decide)
  exact ⟨rfl, by decide, h.1, h.2.1, h.2.2.2.2.1⟩

/-- C7: each of the five isolation levels maps to exactly one literal
directive, issued verbatim by the top-level transaction constructor
immediately on (successful) construction. -/
theorem isolation_level_statements (srv : Srv) (s : ConnState)
    (h : s.current = none) (hwf : WF s) (hsrv : ∀ q, srv q = none) :
    ((begin_transaction srv s isolation_level.default_isolation_level).1.log =
        s.log ++ ["START TRANSACTION"] ∧
      (begin_transaction srv s isolation_level.default_isolation_level).2 =
        Except.ok s.nextId) ∧
    ((begin_transaction srv s isolation_level.serializable).1.log =
        s.log ++ ["START TRANSACTION ISOLATION LEVEL SERIALIZABLE"] ∧
      (begin_transaction srv s isolation_level.serializable).2 =
        Except.ok s.nextId) ∧
    ((begin_transaction srv s isolation_level.repeatable_read).1.log =
        s.log ++ ["START TRANSACTION ISOLATION LEVEL REPEATABLE READ"] ∧
      (begin_transaction srv s isolation_level.repeatable_read).2 =
        Except.ok s.nextId) ∧
    ((begin_transaction srv s isolation_level.read_committed).1.log =
        s.log ++ ["START TRANSACTION ISOLATION LEVEL READ COMMITTED"] ∧
      (begin_transaction srv s isolation_level.read_committed).2 =
        Except.ok s.nextId) ∧
    ((begin_transaction srv s isolation_level.read_uncommitted).1.log =
        s.log ++ ["START TRANSACTION ISOLATION LEVEL READ UNCOMMITTED"] ∧
      (begin_transaction srv s isolation_level.read_uncommitted).2 =
        Except.ok s.nextId) := by
  refine ⟨⟨?_, ?_⟩, ⟨?_, ?_⟩, ⟨?_, ?_⟩, ⟨?_, ?_⟩, ⟨?_, ?_⟩⟩ <;>
    rw [begin_transaction_ok srv s _ h hwf (hsrv _)] <;> rfl

/-- Witness for C7. -/
theorem isolation_level_witness :
    idleConn.current = none ∧ WF idleConn ∧
    (begin_transaction srvOk idleConn isolation_level.serializable).1.log =
      ["START TRANSACTION ISOLATION LEVEL SERIALIZABLE"] := by
  have h := isolation_level_statements srvOk idleConn rfl (by decide) (fun q => rfl)
  exact ⟨rfl, by decide, h.2.1.1⟩

/-- C5: for a transaction that is the connection's current transaction,
`subtransaction()` dispatches on `v_is_direct`: a direct/autocommit caller
gets a top-level subtransaction issuing the literal `START TRANSACTION`,
any other caller gets a nested subtransaction issuing `SAVEPOINT` with a
freshly generated identifier derived from the new object's own identity,
whose commit and rollback then issue `RELEASE SAVEPOINT` and `ROLLBACK TO`
with that same identifier; a non-current caller fails with the order
error. -/
theorem subtransaction_dispatch (srv : Srv) (s : ConnState) (t : Nat) (tx : Txn)
    (hwf : WF s) (hsrv : ∀ q, srv q = none) (hl : getTxn s t = some tx)
    (ha : tx.attached = true) :
    (s.current ≠ some t → subtransaction srv s t = (s, Except.error Error.orderError)) ∧
    (s.current = some t →
      getTxn s s.nextId = none ∧
      (v_is_direct tx.kind = true →
        (subtransaction srv s t).2 = Except.ok s.nextId ∧
        (subtransaction srv s t).1.log = s.log ++ ["START TRANSACTION"] ∧
        getTxn (subtransaction srv s t).1 s.nextId =
          some ⟨TxnKind.topLevelSub, true, some t⟩) ∧
      (v_is_direct tx.kind = false →
        (subtransaction srv s t).2 = Except.ok s.nextId ∧
        (subtransaction srv s t).1.log =
          s.log ++ ["SAVEPOINT \"" ++ savepoint_name s.nextId ++ "\""] ∧
        getTxn (subtransaction srv s t).1 s.nextId =
          some ⟨TxnKind.nestedSub, true, some t⟩ ∧
        (commit srv (subtransaction srv s t).1 s.nextId).1.log =
          s.log ++ ["SAVEPOINT \"" ++ savepoint_name s.nextId ++ "\"",
                    "RELEASE SAVEPOINT \"" ++ savepoint_name s.nextId ++ "\""] ∧
        (rollback srv (subtransaction srv s t).1 s.nextId).1.log =
          s.log ++ ["SAVEPOINT \"" ++ savepoint_name s.nextId ++ "\"",
                    "ROLLBACK TO \"" ++ savepoint_name s.nextId ++ "\""])) := by
  refine ⟨subtransaction_fail srv s t, fun hc => ⟨getTxn_nextId_none s hwf, ?_, ?_⟩⟩
  · intro hd
    have hsub := subtransaction_eq_direct srv s t tx hl ha hc hd
    have hok := mk_top_level_subtransaction_ok srv s hwf (hsrv _)
    refine ⟨by rw [hsub, hok], by rw [hsub, hok], ?_⟩
    rw [hsub, hok, hc]
    exact getTxn_fresh s _ hwf
  · intro hd
    have hsub := subtransaction_eq_nested srv s t tx hl ha hc hd
    have hok := mk_nested_subtransaction_ok srv s hwf (hsrv _)
    have hl1 : getTxn (subtransaction srv s t).1 s.nextId =
        some ⟨TxnKind.nestedSub, true, some t⟩ := by
      rw [hsub, hok, hc]
      exact getTxn_fresh s _ hwf
    have hcur1 : (subtransaction srv s t).1.current = some s.nextId := by
      rw [hsub, hok]
    have hcomm := commit_eq srv (subtransaction srv s t).1 s.nextId
      ⟨TxnKind.nestedSub, true, some t⟩ hl1 rfl hcur1
    have hroll := rollback_eq srv (subtransaction srv s t).1 s.nextId
      ⟨TxnKind.nestedSub, true, some t⟩ hl1 rfl hcur1
    refine ⟨by rw [hsub, hok], by rw [hsub, hok], hl1, ?_, ?_⟩
    · rw [hcomm, hsub, hok]
      simp [v_commit_statement]
    · rw [hroll, hsub, hok]
      simp [v_rollback_statement]

/-- Witness for C5: the top-level caller is not direct, so a nested
subtransaction with savepoint `TAOPQ_1` is created. -/
theorem subtransaction_dispatch_witness :
    WF sampleConn ∧ getTxn sampleConn 0 = some sampleTx ∧
    (subtransaction srvOk sampleConn 0).2 = Except.ok 1 ∧
    (subtransaction srvOk sampleConn 0).1.log = ["SAVEPOINT \"TAOPQ_1\""] ∧
    (commit srvOk (subtransaction srvOk sampleConn 0).1 1).1.log =
      ["SAVEPOINT \"TAOPQ_1\"", "RELEASE SAVEPOINT \"TAOPQ_1\""] := by
  have h := subtransaction_dispatch srvOk sampleConn 0 sampleTx (by decide)
    (fun q => rfl) rfl rfl
  have h2 := (h.2 rfl).2.2 rfl
  exact ⟨by decide, rfl, h2.1, h2.2.1.trans (by decide), h2.2.2.2.1.trans (by decide)⟩

/-- C6: subtransactions strictly nest — however a subtransaction exits
(commit, rollback, or destruction), the connection's current-transaction
pointer is restored to exactly the transaction that was current immediately
before it was entered, and entering `n` subtransactions and exiting them in
LIFO order restores the original transaction as current. -/
theorem subtransactions_strictly_nest (srv : Srv) (s : ConnState) (t : Nat) (tx : Txn)
    (hsrv : ∀ q, srv q = none) (hwf : WF s) (hl : getTxn s t = some tx)
    (ha : tx.attached = true) (hc : s.current = some t) :
    (∀ s1 t1, subtransaction srv s t = (s1, Except.ok t1) →
       (commit srv s1 t1).1.current = some t ∧
       (rollback srv s1 t1).1.current = some t ∧
       (destruct srv s1 t1).current = some t) ∧
    (∀ n, (enter_exit srv s t n).current = some t) := by
  obtain ⟨κ, β, hκ, hsub⟩ := subtransaction_ok_shape srv s t tx hwf hsrv hl ha hc
  constructor
  · intro s1 t1 heq
    rw [hsub] at heq
    injection heq with heq1 heq2
    injection heq2 with heq2
    have ht1 : t1 = s.nextId := heq2.symm
    subst ht1
    have hl1 : getTxn s1 s.nextId = some ⟨κ, true, some t⟩ := by
      rw [← heq1]
      exact getTxn_fresh s _ hwf
    have hcur1 : s1.current = some s.nextId := by rw [← heq1]
    have hrc : reset_current ⟨κ, true, some t⟩ = some t := by
      rcases hκ with rfl | rfl <;> rfl
    have hkna : (⟨κ, true, some t⟩ : Txn).kind ≠ TxnKind.autocommit := by
      rcases hκ with rfl | rfl <;> simp
    refine ⟨?_, ?_, ?_⟩
    · rw [commit_eq srv s1 s.nextId ⟨κ, true, some t⟩ hl1 rfl hcur1]
      exact hrc
    · rw [rollback_eq srv s1 s.nextId ⟨κ, true, some t⟩ hl1 rfl hcur1]
      exact hrc
    · rw [destruct_current_restores srv s1 s.nextId ⟨κ, true, some t⟩ hl1 rfl hcur1 hkna]
      exact hrc
  · intro n
    exact (enter_exit_invariant srv hsrv n s t tx hwf hl ha hc).1

/-- Witness for C6: two nested levels entered and committed in LIFO order
restore transaction `0` as current. -/
theorem strictly_nest_witness :
    WF sampleConn ∧ getTxn sampleConn 0 = some sampleTx ∧
    (enter_exit srvOk sampleConn 0 2).current = some 0 := by
  have h := subtransactions_strictly_nest srvOk sampleConn 0 sampleTx
    (fun q => rfl) (by decide) rfl rfl rfl
  exact ⟨by decide, rfl, h.2 2⟩

/-- C8: a still-attached, current, non-autocommit transaction destroyed with
the connection open attempts `rollback()`; the error that attempt raises —
`e` ranges over every modelled exception, known (`std::exception`-derived)
or unknown — is swallowed: `destruct` completes the cleanup (pointer
restored, attempt logged, object destroyed) and, being a total function
into states, propagates nothing.  The same error raised by an explicit
`rollback()` (or `commit()`) call is returned to the caller. -/
theorem destructor_swallows_rollback_failure
    (srv : Srv) (s : ConnState) (t : Nat) (tx : Txn) (e : Error) (stmt : String)
    (hl : getTxn s t = some tx) (ha : tx.attached = true) (hc : s.current = some t)
    (ho : s.is_open = true) (hk : tx.kind ≠ TxnKind.autocommit)
    (hstmt : v_rollback_statement t tx.kind = some stmt)
    (hsrv : srv stmt = some e) :
    (rollback srv s t).2 = some e ∧
    (destruct srv s t).current = reset_current tx ∧
    (destruct srv s t).log = s.log ++ [stmt] ∧
    getTxn (destruct srv s t) t = none := by
  have hr := rollback_eq srv s t tx hl ha hc
  have hd := destruct_attached_open srv s t tx hl ha hc ho hk
  refine ⟨?_, ?_, ?_, ?_⟩
  · rw [hr]
    show (v_rollback_statement t tx.kind).bind srv = some e
    rw [hstmt]
    exact hsrv
  · rw [hd, hr]
    rfl
  · rw [hd, hr]
    show s.log ++ (v_rollback_statement t tx.kind).toList = s.log ++ [stmt]
    rw [hstmt]
    rfl
  · rw [hd, hr]
    exact lookup_filter_ne _ t

/-- Witness for C8: the server rejects the `ROLLBACK TRANSACTION` issued by
the destructor of transaction `0`; the explicit rollback propagates the
error while destruction swallows it after the attempt. -/
theorem destructor_swallows_witness :
    sampleConn.is_open = true ∧ getTxn sampleConn 0 = some sampleTx ∧
    (rollback srvFail sampleConn 0).2 = some (Error.serverError true) ∧
    (destruct srvFail sampleConn 0).log = ["ROLLBACK TRANSACTION"] ∧
    getTxn (destruct srvFail sampleConn 0) 0 = none := by
  have h := destructor_swallows_rollback_failure srvFail sampleConn 0 sampleTx
    (Error.serverError true) "ROLLBACK TRANSACTION" rfl rfl rfl rfl (by decide) rfl rfl
  exact ⟨rfl, rfl, h.1, h.2.2.1.trans (by decide), h.2.2.2⟩

/-- C9: the pool's convenience `execute` is the composition: acquire a
connection from the pool, run the single statement through a direct
(autocommit) transaction via `connection::execute`, then release the lease
— same final pool, same final connection, same result or error. -/
theorem pool_execute_refines (srv : Srv) (p : PoolState) (stmt : String) :
    pool_execute srv p stmt = pool_execute_spec srv p stmt := by
  unfold pool_execute pool_execute_spec connection_execute
  rcases hg : pool_get p with ⟨p1, c⟩
  rcases hd : direct c with ⟨c1, r⟩
  simp only [hd]
  cases r <;> rfl

/-- C10: a transaction on which `commit()` or `rollback()` has completed is
detached, so its later destruction merely releases the object: it issues no
further statement (log unchanged) and leaves the connection's
current-transaction pointer untouched, for any server behaviour during the
resolution and during the destruction. -/
theorem transaction_resolved_at_most_once
    (srv srv2 : Srv) (s : ConnState) (t : Nat) (tx : Txn)
    (hl : getTxn s t = some tx) (ha : tx.attached = true) (hc : s.current = some t) :
    (destruct srv2 (commit srv s t).1 t = eraseTxn (commit srv s t).1 t ∧
      (destruct srv2 (commit srv s t).1 t).current = (commit srv s t).1.current ∧
      (destruct srv2 (commit srv s t).1 t).log = (commit srv s t).1.log) ∧
    (destruct srv2 (rollback srv s t).1 t = eraseTxn (rollback srv s t).1 t ∧
      (destruct srv2 (rollback srv s t).1 t).current = (rollback srv s t).1.current ∧
      (destruct srv2 (rollback srv s t).1 t).log = (rollback srv s t).1.log) := by
  have hlc := getTxn_after_commit srv s t tx hl ha hc
  have hlr := getTxn_after_rollback srv s t tx hl ha hc
  have h1 := destruct_detached srv2 (commit srv s t).1 t _ hlc rfl
  have h2 := destruct_detached srv2 (rollback srv s t).1 t _ hlr rfl
  refine ⟨⟨h1, ?_, ?_⟩, ⟨h2, ?_, ?_⟩⟩
  · rw [h1]
    rfl
  · rw [h1]
    rfl
  · rw [h2]
    rfl
  · rw [h2]
    rfl

/-- Witness for C10: even with a server that would reject everything at
destruction time, destroying the already-committed transaction `0` issues
nothing and keeps the pointer. -/
theorem resolved_at_most_once_witness :
    getTxn sampleConn 0 = some sampleTx ∧
    (destruct srvFail (commit srvOk sampleConn 0).1 0).log =
      (commit srvOk sampleConn 0).1.log ∧
    (destruct srvFail (commit srvOk sampleConn 0).1 0).current =
      (commit srvOk sampleConn 0).1.current := by
  have h := transaction_resolved_at_most_once srvOk srvFail sampleConn 0 sampleTx rfl rfl rfl
  exact ⟨rfl, h.1.2.2, h.1.2.1⟩

end TaoPq
